import Mathlib

/-!
Shallow embedding of the Safe-Chat backend realtime core
(src/backend/src/websocket.rs and the message endpoints of
src/backend/src/api.rs), with theorems settling the frozen claims.

Modelling conventions:
* `Uuid` values are modelled as `Nat`; `Uuid::parse_str` is modelled for all
  four textual formats it accepts (simple, hyphenated, braced, URN).
* The durable store is a list of message rows; the sqlx queries of the source
  become the corresponding pure list operations.  Fallible store calls take a
  `Bool` success flag so that store-failure paths stay observable.
* The `DashMap<Uuid, broadcast::Sender>` connection registry is an association
  list from user id to channel id; `insert` replaces the entry for the key.
* Event delivery is recorded as a list of `(channel id, event)` pairs in the
  order the source emits them; `tokio::sync::broadcast::send` failure is
  modelled by a `sendOk : Nat → Bool` predicate on channel ids.
* The base64 transcoding is the `base64` crate's `STANDARD` engine: canonical
  padding required, non-zero trailing bits rejected.
-/

namespace SafeChat

/-- Value of one base64 standard-alphabet character (`A`-`Z`, `a`-`z`,
`0`-`9`, `+`, `/`); `none` for any other character, including `=`. -/
def decodeChar (c : Char) : Option Nat :=
  if 65 ≤ c.toNat ∧ c.toNat ≤ 90 then some (c.toNat - 65)
  else if 97 ≤ c.toNat ∧ c.toNat ≤ 122 then some (c.toNat - 97 + 26)
  else if 48 ≤ c.toNat ∧ c.toNat ≤ 57 then some (c.toNat - 48 + 52)
  else if c.toNat = 43 then some 62
  else if c.toNat = 47 then some 63
  else none

/-- Standard-alphabet character of a 6-bit value. -/
def encodeChar (v : Nat) : Char :=
  if v < 26 then Char.ofNat (65 + v)
  else if v < 52 then Char.ofNat (97 + (v - 26))
  else if v < 62 then Char.ofNat (48 + (v - 52))
  else if v = 62 then '+'
  else '/'

/-- Strict base64 decode over characters, mirroring
`base64::engine::general_purpose::STANDARD.decode`: input length must be a
multiple of 4, padding must be canonical, and the unused low bits of the last
symbol before padding must be zero. Bytes are `Nat` values below 256. -/
def b64decode : List Char → Option (List Nat)
  | [] => some []
  | c1 :: c2 :: c3 :: c4 :: rest =>
    match decodeChar c1, decodeChar c2 with
    | some v1, some v2 =>
      if c3 = '=' then
        if c4 = '=' ∧ rest = [] ∧ v2 % 16 = 0 then
          some [v1 * 4 + v2 / 16]
        else none
      else
        match decodeChar c3 with
        | some v3 =>
          if c4 = '=' then
            if rest = [] ∧ v3 % 4 = 0 then
              some [v1 * 4 + v2 / 16, v2 % 16 * 16 + v3 / 4]
            else none
          else
            match decodeChar c4 with
            | some v4 =>
              match b64decode rest with
              | some bs =>
                some ([v1 * 4 + v2 / 16, v2 % 16 * 16 + v3 / 4, v3 % 4 * 64 + v4] ++ bs)
              | none => none
            | none => none
        | none => none
    | _, _ => none
  | _ => none

/-- Base64 encode over bytes, mirroring `base64::encode` (the `STANDARD`
engine with padding). -/
def b64encode : List Nat → List Char
  | [] => []
  | [b1] => [encodeChar (b1 / 4), encodeChar (b1 % 4 * 16), '=', '=']
  | [b1, b2] =>
    [encodeChar (b1 / 4), encodeChar (b1 % 4 * 16 + b2 / 16), encodeChar (b2 % 16 * 4), '=']
  | b1 :: b2 :: b3 :: rest =>
    encodeChar (b1 / 4) :: encodeChar (b1 % 4 * 16 + b2 / 16) ::
      encodeChar (b2 % 16 * 4 + b3 / 64) :: encodeChar (b3 % 64) :: b64encode rest

theorem decodeChar_lt {c : Char} {v : Nat} (h : decodeChar c = some v) : v < 64 := by
  unfold decodeChar at h
  repeat' split at h
  all_goals injection h
  all_goals omega

theorem encodeChar_decodeChar {c : Char} {v : Nat} (h : decodeChar c = some v) :
    encodeChar v = c := by
  unfold decodeChar at h
  split at h
  next h1 =>
    injection h with h
    have h2 : 65 + v = c.toNat := by omega
    have h3 : encodeChar v = Char.ofNat (65 + v) := by
      unfold encodeChar
      rw [if_pos (show v < 26 by omega)]
    rw [h3, h2, Char.ofNat_toNat]
  next h1 =>
    split at h
    next h2 =>
      injection h with h
      have h2 : 97 + (v - 26) = c.toNat := by omega
      have h3 : encodeChar v = Char.ofNat (97 + (v - 26)) := by
        unfold encodeChar
        rw [if_neg (show ¬ v < 26 by omega), if_pos (show v < 52 by omega)]
      rw [h3, h2, Char.ofNat_toNat]
    next h2 =>
      split at h
      next h3 =>
        injection h with h
        have h4 : 48 + (v - 52) = c.toNat := by omega
        have h5 : encodeChar v = Char.ofNat (48 + (v - 52)) := by
          unfold encodeChar
          rw [if_neg (show ¬ v < 26 by omega), if_neg (show ¬ v < 52 by omega),
            if_pos (show v < 62 by omega)]
        rw [h5, h4, Char.ofNat_toNat]
      next h3 =>
        split at h
        next h4 =>
          injection h with h
          have h5 : encodeChar v = '+' := by
            unfold encodeChar
            rw [if_neg (show ¬ v < 26 by omega), if_neg (show ¬ v < 52 by omega),
              if_neg (show ¬ v < 62 by omega), if_pos (show v = 62 by omega)]
          have h6 : (43 : Nat) = c.toNat := by omega
          have h7 : Char.ofNat 43 = c := by rw [h6, Char.ofNat_toNat]
          rw [h5, ← h7]
        next h4 =>
          split at h
          next h5 =>
            injection h with h
            have h6 : encodeChar v = '/' := by
              unfold encodeChar
              rw [if_neg (show ¬ v < 26 by omega), if_neg (show ¬ v < 52 by omega),
                if_neg (show ¬ v < 62 by omega), if_neg (show ¬ v = 62 by omega)]
            have h7 : (47 : Nat) = c.toNat := by omega
            have h8 : Char.ofNat 47 = c := by rw [h7, Char.ofNat_toNat]
            rw [h6, ← h8]
          next h5 =>
            exact absurd h (by simp)

/-- The strict decoder accepts only canonical encodings: re-encoding the
decoded bytes reproduces the input characters exactly. -/
theorem b64encode_decode : (s : List Char) → (bs : List Nat) →
    b64decode s = some bs → b64encode bs = s
  | [], bs, h => by
    unfold b64decode at h
    injection h with h
    rw [← h]
    rfl
  | [c1], bs, h => by
    unfold b64decode at h
    exact absurd h (by simp)
  | [c1, c2], bs, h => by
    unfold b64decode at h
    exact absurd h (by simp)
  | [c1, c2, c3], bs, h => by
    unfold b64decode at h
    exact absurd h (by simp)
  | c1 :: c2 :: c3 :: c4 :: rest, bs, h => by
    unfold b64decode at h
    split at h
    next v1 v2 hv1 hv2 =>
      have hb1 := decodeChar_lt hv1
      have hb2 := decodeChar_lt hv2
      split at h
      next hc3 =>
        split at h
        next hcond =>
          obtain ⟨hc4, hrest, hbits⟩ := hcond
          injection h with h
          subst h
          subst hrest
          subst hc3
          subst hc4
          simp only [b64encode]
          have l1 : (v1 * 4 + v2 / 16) / 4 = v1 := by omega
          have l2 : (v1 * 4 + v2 / 16) % 4 * 16 = v2 := by omega
          rw [l1, l2, encodeChar_decodeChar hv1, encodeChar_decodeChar hv2]
        next =>
          exact absurd h (by simp)
      next hc3 =>
        split at h
        next v3 hv3 =>
          have hb3 := decodeChar_lt hv3
          split at h
          next hc4 =>
            split at h
            next hcond =>
              obtain ⟨hrest, hbits⟩ := hcond
              injection h with h
              subst h
              subst hrest
              subst hc4
              simp only [b64encode]
              have l1 : (v1 * 4 + v2 / 16) / 4 = v1 := by omega
              have l2 :
                  (v1 * 4 + v2 / 16) % 4 * 16 + (v2 % 16 * 16 + v3 / 4) / 16 = v2 := by omega
              have l3 : (v2 % 16 * 16 + v3 / 4) % 16 * 4 = v3 := by omega
              rw [l1, l2, l3, encodeChar_decodeChar hv1, encodeChar_decodeChar hv2,
                encodeChar_decodeChar hv3]
            next =>
              exact absurd h (by simp)
          next hc4 =>
            split at h
            next v4 hv4 =>
              have hb4 := decodeChar_lt hv4
              split at h
              next bs' hrest =>
                injection h with h
                subst h
                simp only [List.append_eq, List.cons_append, List.nil_append, b64encode]
                have l1 : (v1 * 4 + v2 / 16) / 4 = v1 := by omega
                have l2 :
                    (v1 * 4 + v2 / 16) % 4 * 16 + (v2 % 16 * 16 + v3 / 4) / 16 = v2 := by
                  omega
                have l3 :
                    (v2 % 16 * 16 + v3 / 4) % 16 * 4 + (v3 % 4 * 64 + v4) / 64 = v3 := by
                  omega
                have l4 : (v3 % 4 * 64 + v4) % 64 = v4 := by omega
                rw [l1, l2, l3, l4, encodeChar_decodeChar hv1, encodeChar_decodeChar hv2,
                  encodeChar_decodeChar hv3, encodeChar_decodeChar hv4,
                  b64encode_decode rest bs' hrest]
              next =>
                exact absurd h (by simp)
            next =>
              exact absurd h (by simp)
        next =>
          exact absurd h (by simp)
    next =>
      exact absurd h (by simp)

/-- Decode of a base64 string, as applied to `encrypted_content` and `iv` in
`handle_send_message`. -/
def b64decodeStr (s : String) : Option (List Nat) :=
  b64decode s.data

/-- Encode of stored bytes back to a base64 string, as applied by
`get_messages_with_user` when building a `MessageResponse`. -/
def b64encodeStr (bs : List Nat) : String :=
  String.mk (b64encode bs)

/-- String-level round trip: any string the send path accepts is reproduced
exactly by the fetch path's encoding. -/
theorem b64encodeStr_decodeStr {s : String} {bs : List Nat}
    (h : b64decodeStr s = some bs) : b64encodeStr bs = s := by
  unfold b64decodeStr at h
  unfold b64encodeStr
  rw [b64encode_decode s.data bs h]

/-- Value of one hexadecimal digit, or `none`. -/
def hexVal (c : Char) : Option Nat :=
  if 48 ≤ c.toNat ∧ c.toNat ≤ 57 then some (c.toNat - 48)
  else if 97 ≤ c.toNat ∧ c.toNat ≤ 102 then some (c.toNat - 97 + 10)
  else if 65 ≤ c.toNat ∧ c.toNat ≤ 70 then some (c.toNat - 65 + 10)
  else none

/-- Big-endian accumulation of hex digits; fails on a non-hex character. -/
def parseHexDigits : List Char → Nat → Option Nat
  | [], acc => some acc
  | c :: cs, acc =>
    match hexVal c with
    | some d => parseHexDigits cs (acc * 16 + d)
    | none => none

/-- Accepts the 36-char hyphenated layout (hyphens at positions 8, 13, 18,
23), returning the 32 payload characters. -/
def stripUuidHyphens (cs : List Char) : Option (List Char) :=
  if cs.length = 36 then
    if cs[8]? = some '-' ∧ cs[13]? = some '-' ∧ cs[18]? = some '-' ∧ cs[23]? = some '-' then
      some (cs.take 8 ++ (cs.drop 9).take 4 ++ (cs.drop 14).take 4 ++
        (cs.drop 19).take 4 ++ cs.drop 24)
    else none
  else none

/-- The four textual layouts `Uuid::parse_str` accepts, mapped to their 32
payload characters: 32-char simple, 36-char hyphenated, 38-char braced
(`{` + hyphenated + `}`), and 45-char URN (`urn:uuid:` + hyphenated). -/
def uuidDigits (cs : List Char) : Option (List Char) :=
  if cs.length = 32 then some cs
  else if cs.length = 36 then stripUuidHyphens cs
  else if cs.length = 38 ∧ cs[0]? = some '{' ∧ cs[37]? = some '}' then
    stripUuidHyphens ((cs.drop 1).take 36)
  else if cs.length = 45 ∧
      cs.take 9 = ['u', 'r', 'n', ':', 'u', 'u', 'i', 'd', ':'] then
    stripUuidHyphens (cs.drop 9)
  else none

/-- Model of `Uuid::parse_str`: a 128-bit identifier read from its simple,
hyphenated, braced, or URN text form; the identifier itself is modelled as
`Nat`. -/
def uuidParse (s : String) : Option Nat :=
  match uuidDigits s.data with
  | some ds => parseHexDigits ds 0
  | none => none

/-- Wire payload of a `send_message` frame (struct `SendMessageData`). -/
structure SendMessageData where
  message_id : String
  receiver_id : String
  rtype : String
  encrypted_content : String
  iv : String
deriving DecidableEq

/-- Wire payload of an `update_status` frame (struct `UpdateStatusData`). -/
structure UpdateStatusData where
  message_id : String
  status : String
deriving DecidableEq

/-- Outbound `new_message` payload (struct `MessageNotification`). -/
structure MessageNotification where
  id : String
  timestamp : String
  sender_id : String
  receiver_id : String
  status : String
  rtype : String
  encrypted_content : String
  iv : String
deriving DecidableEq

/-- Outbound `status_update` payload (struct `StatusUpdate`). -/
structure StatusUpdateMsg where
  message_id : String
  status : String
  updated_by : String
deriving DecidableEq

/-- Transient events pushed through a session's registry channel
(enum `WSEvent`). -/
inductive WSEvent where
  | NewMessage (m : MessageNotification)
  | StatusUpdate (u : StatusUpdateMsg)
  | UserOnline (user : String)
  | UserOffline (user : String)
deriving DecidableEq

/-- One durable row of the `messages` table. -/
structure Msg where
  id : Nat
  timestamp : Int
  sender_id : Nat
  receiver_id : Nat
  status : String
  rtype : String
  encrypted_content : List Nat
  iv : List Nat
deriving DecidableEq

/-- The durable message store. -/
abbrev Store := List Msg

/-- The connection registry `DashMap<Uuid, broadcast::Sender<WSEvent>>`,
as an association list from user id to channel id. -/
abbrev Registry := List (Nat × Nat)

/-- One delivered event: target channel id paired with the event. -/
abbrev Delivery := Nat × WSEvent

/-- Registry lookup (`connections.get`). -/
def lookupConn (reg : Registry) (u : Nat) : Option Nat :=
  match reg.find? (fun p => p.1 == u) with
  | some p => some p.2
  | none => none

/-- Registry insert (`connections.insert`): replaces any entry for the key. -/
def insertConn (reg : Registry) (u ch : Nat) : Registry :=
  (u, ch) :: reg.filter (fun p => ! (p.1 == u))

/-- Registry removal (`connections.remove`): drops the entry for the key,
whichever session now owns it. -/
def removeConn (reg : Registry) (u : Nat) : Registry :=
  reg.filter (fun p => ! (p.1 == u))

/-- `broadcast_message_to_user`: push `NewMessage` to the receiver's channel
if registered; a failed or absent channel delivers nothing (logged only). -/
def broadcast_message_to_user (reg : Registry) (sendOk : Nat → Bool) (user : Nat)
    (m : MessageNotification) : List Delivery :=
  match lookupConn reg user with
  | some ch => if sendOk ch then [(ch, WSEvent.NewMessage m)] else []
  | none => []

/-- `broadcast_status_update_to_user`: push `StatusUpdate` to one user's
channel if registered; failure is logged only. -/
def broadcast_status_update_to_user (reg : Registry) (sendOk : Nat → Bool) (user : Nat)
    (u : StatusUpdateMsg) : List Delivery :=
  match lookupConn reg user with
  | some ch => if sendOk ch then [(ch, WSEvent.StatusUpdate u)] else []
  | none => []

/-- `broadcast_to_all`: best-effort push to every registered channel. -/
def broadcast_to_all (reg : Registry) (sendOk : Nat → Bool) (e : WSEvent) : List Delivery :=
  reg.filterMap (fun p => if sendOk p.2 then some (p.2, e) else none)

/-- ASCII whitespace recognizer used by the `trim` model. -/
def isWsChar (c : Char) : Bool :=
  c == ' ' || c == '\t' || c == '\n' || c == '\r'

/-- Model of Rust `str::trim`: strip leading and trailing whitespace. -/
def rustTrim (s : String) : String :=
  String.mk (((s.data.dropWhile isWsChar).reverse.dropWhile isWsChar).reverse)

/-- ASCII uppercase of one character. -/
def charUpper (c : Char) : Char :=
  if 97 ≤ c.toNat ∧ c.toNat ≤ 122 then Char.ofNat (c.toNat - 32) else c

/-- Model of Rust `str::to_uppercase`. -/
def rustUpper (s : String) : String :=
  String.mk (s.data.map charUpper)

/-- The status normalization `status.trim().to_uppercase()` applied by both
status-update paths. -/
def normStatus (s : String) : String :=
  rustUpper (rustTrim s)

/-- The allowed status strings, as checked by both status-update paths. -/
def statusValid (status : String) : Bool :=
  ["SENT", "DELIVERED", "READ", "FAILED"].contains status

/-- `handle_send_message` from websocket.rs: parse the two ids, decode the two
base64 fields, insert the row with status `SENT`, then notify the receiver and
echo `StatusUpdate(SENT, updated_by = server)` to the sender. -/
def handle_send_message (sender_id : Nat) (d : SendMessageData) (reg : Registry)
    (sendOk : Nat → Bool) (insertOk : Bool) (now : Int) (store : Store) :
    Except String (Store × List Delivery) :=
  match uuidParse d.receiver_id with
  | none => .error "Invalid receiver_id format"
  | some receiver_id =>
    match uuidParse d.message_id with
    | none => .error "Invalid message_id format"
    | some message_id =>
      match b64decodeStr d.encrypted_content with
      | none => .error "Invalid base64 for encrypted_content"
      | some content =>
        match b64decodeStr d.iv with
        | none => .error "Invalid base64 for iv"
        | some ivBytes =>
          if insertOk then
            let row : Msg :=
              { id := message_id, timestamp := now, sender_id := sender_id,
                receiver_id := receiver_id, status := "SENT", rtype := d.rtype,
                encrypted_content := content, iv := ivBytes }
            let notif : MessageNotification :=
              { id := toString message_id, timestamp := toString now,
                sender_id := toString sender_id, receiver_id := toString receiver_id,
                status := "SENT", rtype := d.rtype,
                encrypted_content := d.encrypted_content, iv := d.iv }
            let su : StatusUpdateMsg :=
              { message_id := toString message_id, status := "SENT", updated_by := "server" }
            .ok (store ++ [row],
              broadcast_message_to_user reg sendOk receiver_id notif ++
                broadcast_status_update_to_user reg sendOk sender_id su)
          else .error "Database error"

/-- `handle_update_status` from websocket.rs: validate, fetch the row's
parties, enforce the READ authorization rule, persist the new status,
broadcast to both parties, and on READ schedule a deletion due 5 seconds
after the call (returned in the pending-deletion list). -/
def handle_update_status (user_id : Nat) (d : UpdateStatusData) (reg : Registry)
    (sendOk : Nat → Bool) (fetchOk updateOk : Bool) (now : Int) (store : Store) :
    Except String (Store × List Delivery × List (Nat × Int)) :=
  match uuidParse d.message_id with
  | none => .error "Invalid message_id format"
  | some message_id =>
    if ¬ statusValid (normStatus d.status) then
      .error "Invalid status. Must be one of SENT, DELIVERED, READ, FAILED"
    else if ¬ fetchOk then
      .error "Database error checking message"
    else
      match store.find? (fun m => m.id == message_id) with
      | none => .error "Message not found"
      | some row =>
        if row.receiver_id ≠ user_id ∧ normStatus d.status = "READ" then
          .error "Only the message receiver can mark it as read"
        else if ¬ updateOk then
          .error "Failed to update message status"
        else
          if 0 < store.countP (fun m => m.id == message_id) then
            .ok (store.map
                (fun m => if m.id == message_id then
                  { m with status := normStatus d.status } else m),
              broadcast_status_update_to_user reg sendOk row.sender_id
                  ⟨toString message_id, normStatus d.status, toString user_id⟩ ++
                broadcast_status_update_to_user reg sendOk row.receiver_id
                  ⟨toString message_id, normStatus d.status, toString user_id⟩,
              if normStatus d.status = "READ" then [(message_id, now + 5)] else [])
          else .error "Message not found for status update"

/-- `update_message_status` from api.rs: same validation and READ
authorization, but a READ request deletes the row immediately instead of
updating its status; other statuses update in place.  Returns the HTTP
status code, the body text, and the resulting store. -/
def update_message_status_api (user_id : Nat) (message_id : String) (status_in : String)
    (fetchOk updateOk deleteOk : Bool) (store : Store) : (Nat × String) × Store :=
  match uuidParse message_id with
  | none => ((400, "Invalid message_id format"), store)
  | some msg_id =>
    if ¬ statusValid (normStatus status_in) then
      ((400, "Invalid status. Must be one of SENT, DELIVERED, READ, FAILED"), store)
    else if ¬ fetchOk then ((500, "Database error"), store)
    else
      match store.find? (fun m => m.id == msg_id) with
      | none => ((404, "Message not found"), store)
      | some row =>
        if row.receiver_id ≠ user_id ∧ normStatus status_in = "READ" then
          ((403, "Only the message receiver can mark it as read"), store)
        else if normStatus status_in = "READ" then
          if ¬ deleteOk then ((500, "Failed to delete message"), store)
          else
            if 0 < store.countP (fun m => m.id == msg_id) then
              ((200, "Message marked as read and deleted"),
                store.filter (fun m => ! (m.id == msg_id)))
            else ((404, "Message not found"), store)
        else
          if ¬ updateOk then ((500, "Failed to update message status"), store)
          else
            if 0 < store.countP (fun m => m.id == msg_id) then
              ((200, "Message status updated"),
                store.map (fun m =>
                  if m.id == msg_id then { m with status := normStatus status_in } else m))
            else ((404, "Message not found"), store)

/-- One element of the JSON array returned by `GET /messages/:user_id`
(struct `MessageResponse`). -/
structure MessageResponse where
  id : String
  timestamp : String
  sender_id : String
  receiver_id : String
  status : String
  rtype : String
  encrypted_content : String
  iv : String
deriving DecidableEq

/-- Row-to-response mapping of `get_messages_with_user`: binary columns are
re-encoded to base64. -/
def messageRowToResponse (m : Msg) : MessageResponse :=
  { id := toString m.id, timestamp := toString m.timestamp,
    sender_id := toString m.sender_id, receiver_id := toString m.receiver_id,
    status := m.status, rtype := m.rtype,
    encrypted_content := b64encodeStr m.encrypted_content,
    iv := b64encodeStr m.iv }

/-- `get_messages_with_user` from api.rs: rows between the two users, ordered
by timestamp ascending, each mapped to a `MessageResponse`. -/
def get_messages_with_user (requesting_user other_user : Nat) (store : Store) :
    List MessageResponse :=
  ((store.filter (fun m =>
      (m.sender_id == requesting_user && m.receiver_id == other_user) ||
        (m.sender_id == other_user && m.receiver_id == requesting_user))).mergeSort
    (fun a b => decide (a.timestamp ≤ b.timestamp))).map messageRowToResponse

/-- Store-failure switches for the commands a frame can trigger. -/
structure DbFlags where
  insertOk : Bool
  fetchOk : Bool
  updateOk : Bool
deriving DecidableEq

/-- Parse outcome of the `data` field of a frame: it either deserializes as
the struct the tag's handler expects, or that deserialization fails. -/
inductive FrameData where
  | sendData (d : SendMessageData)
  | updateData (d : UpdateStatusData)
  | badData
deriving DecidableEq

/-- `handle_client_message` from websocket.rs: a frame that is not valid JSON
for `WebSocketMessage` is `none`; otherwise the tag is dispatched, unknown
tags are logged and succeed, and each handler may fail with a local error. -/
def handle_client_message (user_id : Nat) (wmsg : Option (String × FrameData))
    (reg : Registry) (sendOk : Nat → Bool) (dbf : DbFlags) (now : Int) (store : Store) :
    Except String (Store × List Delivery × List (Nat × Int)) :=
  match wmsg with
  | none => .error "Failed to parse client message"
  | some (tag, dta) =>
    if tag = "ping" then .ok (store, [], [])
    else if tag = "mark_typing" then .ok (store, [], [])
    else if tag = "send_message" then
      match dta with
      | .sendData d =>
        match handle_send_message user_id d reg sendOk dbf.insertOk now store with
        | .ok (st, evs) => .ok (st, evs, [])
        | .error e => .error e
      | _ => .error "Failed to parse send_message data"
    else if tag = "update_status" then
      match dta with
      | .updateData d =>
        handle_update_status user_id d reg sendOk dbf.fetchOk dbf.updateOk now store
      | _ => .error "Failed to parse update_status data"
    else .ok (store, [], [])

/-- One item read by the inbound loop of `handle_websocket`: a text frame, a
close frame, a protocol ping (whose pong write may fail), any other frame
kind, or a transport read error. -/
inductive InMsg where
  | text (wmsg : Option (String × FrameData))
  | close
  | ping (pongOk : Bool)
  | binary
  | sockErr
deriving DecidableEq

/-- One iteration of the inbound loop: returns the store after the frame and
whether the loop continues to the next frame.  A handler error is logged and
the loop continues; close, read error, or a failed pong write break it. -/
def inboundStep (user_id : Nat) (reg : Registry) (sendOk : Nat → Bool) (dbf : DbFlags)
    (now : Int) (store : Store) (m : InMsg) : Store × Bool :=
  match m with
  | .text wmsg =>
    match handle_client_message user_id wmsg reg sendOk dbf now store with
    | .ok (st, _, _) => (st, true)
    | .error _ => (store, true)
  | .close => (store, false)
  | .ping pongOk => (store, pongOk)
  | .binary => (store, true)
  | .sockErr => (store, false)

/-- How one `serde_json::to_string` + socket write of an event turns out in
the outbound loop: a serialization failure is logged and the loop continues,
a failed socket write breaks it. -/
inductive WriteOutcome where
  | serializeFailed
  | written
  | writeFailed
deriving DecidableEq

/-- One outcome of `rx.recv().await` in the outbound loop: an event received
from the broadcast channel together with how its write goes, or one of the
receive errors — `lagged` when this receiver has fallen more than the ring
capacity behind (push overflow), `closed` when every sender is gone. -/
inductive RecvOutcome where
  | event (e : WSEvent) (w : WriteOutcome)
  | lagged
  | closed
deriving DecidableEq

/-- One iteration of the outbound loop of `handle_websocket`: the
`while let Ok(event) = rx.recv().await` header exits on any receive error
(including `Lagged`), a serialization failure continues to the next event,
and a failed socket write breaks the loop. -/
def outboundStep (r : RecvOutcome) : Bool :=
  match r with
  | .event _ w =>
    match w with
    | .serializeFailed => true
    | .written => true
    | .writeFailed => false
  | .lagged => false
  | .closed => false

/-- The `tokio::select!` over the two loop tasks: teardown begins as soon as
either loop has ended. -/
def sessionEnded (inboundEnded outboundEnded : Bool) : Bool :=
  inboundEnded || outboundEnded

/-- Capacity requested for each session's broadcast channel: the literal 100
of `broadcast::channel(100)`. -/
def requestedChannelCapacity : Nat := 100

/-- Actual ring-buffer size of the session channel:
`tokio::sync::broadcast::channel` rounds the requested capacity up to the
next power of two, so the 100-slot request allocates 128 slots and a
receiver only starts losing events once it falls more than 128 behind. -/
def sessionChannelCapacity : Nat := 128

/-- Pending-event buffer semantics of `tokio::sync::broadcast` for one
receiver: a send appends and, past the ring capacity, the oldest unread
event is discarded; the sender itself is never blocked. -/
def chanSend (q : List WSEvent) (e : WSEvent) : List WSEvent :=
  let q2 := q ++ [e]
  if sessionChannelCapacity < q2.length then
    q2.drop (q2.length - sessionChannelCapacity)
  else q2

/-- Folding a burst of sends into an unconsumed channel buffer. -/
def chanSendAll (q : List WSEvent) (es : List WSEvent) : List WSEvent :=
  es.foldl chanSend q

/-- The registry entry installed by `handle_websocket` on connect
(`connections.insert` then `UserOnline` broadcast to all). -/
def sessionRegister (reg : Registry) (sendOk : Nat → Bool) (u ch : Nat) :
    Registry × List Delivery :=
  let reg2 := insertConn reg u ch
  (reg2, broadcast_to_all reg2 sendOk (WSEvent.UserOnline (toString u)))

/-- The teardown of `handle_websocket` after either loop ends
(`connections.remove` then `UserOffline` broadcast to the remaining entries). -/
def sessionCleanup (reg : Registry) (sendOk : Nat → Bool) (u : Nat) :
    Registry × List Delivery :=
  let reg2 := removeConn reg u
  (reg2, broadcast_to_all reg2 sendOk (WSEvent.UserOffline (toString u)))

/-- Whole-system state: the logical clock (seconds), the durable store, the
connection registry, and the not-yet-fired deferred deletions spawned by READ
updates (message id and due time). -/
structure Sys where
  clock : Int
  store : Store
  reg : Registry
  pending : List (Nat × Int)
deriving DecidableEq

/-- Actions the system can take: the two websocket commands, the HTTP status
endpoint, session connect/disconnect, and the passage of time. -/
inductive Act where
  | wsSend (sender : Nat) (d : SendMessageData)
  | wsUpdate (user : Nat) (d : UpdateStatusData)
  | httpUpdate (user : Nat) (message_id : String) (status : String)
  | connect (u ch : Nat)
  | disconnect (u : Nat)
  | elapse (d : Nat)
deriving DecidableEq

/-- Firing of deferred deletions: every pending entry whose due time has
arrived deletes all rows with its message id (`DELETE FROM messages WHERE
id = $1`), and is consumed. -/
def fireDue (store : Store) (pending : List (Nat × Int)) (t : Int) :
    Store × List (Nat × Int) :=
  (store.filter (fun m => ! pending.any (fun p => p.1 == m.id && decide (p.2 ≤ t))),
    pending.filter (fun p => decide (t < p.2)))

/-- Small-step semantics of the system.  Store calls succeed here (store
failure is covered by the per-handler flags); a failed handler leaves the
state unchanged.  The deferred deletion spawned by a READ update runs when
its due time is reached, independent of any session. -/
def stepA (sendOk : Nat → Bool) (s : Sys) (a : Act) : Sys :=
  match a with
  | .wsSend sender d =>
    match handle_send_message sender d s.reg sendOk true s.clock s.store with
    | .ok (st, _) => { s with store := st }
    | .error _ => s
  | .wsUpdate user d =>
    match handle_update_status user d s.reg sendOk true true s.clock s.store with
    | .ok (st, _, pend) => { s with store := st, pending := s.pending ++ pend }
    | .error _ => s
  | .httpUpdate user mid status =>
    { s with store := (update_message_status_api user mid status true true true s.store).2 }
  | .connect u ch => { s with reg := insertConn s.reg u ch }
  | .disconnect u => { s with reg := removeConn s.reg u }
  | .elapse d =>
    let t := s.clock + d
    let fp := fireDue s.store s.pending t
    { clock := t, store := fp.1, reg := s.reg, pending := fp.2 }

/-- Running a list of actions. -/
def runActs (sendOk : Nat → Bool) (s : Sys) : List Act → Sys
  | [] => s
  | a :: acts => runActs sendOk (stepA sendOk s a) acts

/-- Recognizer for `NewMessage` events. -/
def isNewMessageEv : WSEvent → Bool
  | .NewMessage _ => true
  | _ => false

/-- Recognizer for `StatusUpdate` events. -/
def isStatusUpdateEv : WSEvent → Bool
  | .StatusUpdate _ => true
  | _ => false

theorem broadcast_status_some {reg : Registry} {sendOk : Nat → Bool} {u ch : Nat}
    {su : StatusUpdateMsg} (hl : lookupConn reg u = some ch) (hs : sendOk ch = true) :
    broadcast_status_update_to_user reg sendOk u su = [(ch, WSEvent.StatusUpdate su)] := by
  unfold broadcast_status_update_to_user
  rw [hl]
  simp [hs]

theorem broadcast_status_none {reg : Registry} {sendOk : Nat → Bool} {u : Nat}
    {su : StatusUpdateMsg} (hl : lookupConn reg u = none) :
    broadcast_status_update_to_user reg sendOk u su = [] := by
  unfold broadcast_status_update_to_user
  rw [hl]

theorem broadcast_status_dead {reg : Registry} {sendOk : Nat → Bool} {u ch : Nat}
    {su : StatusUpdateMsg} (hl : lookupConn reg u = some ch) (hs : sendOk ch = false) :
    broadcast_status_update_to_user reg sendOk u su = [] := by
  unfold broadcast_status_update_to_user
  rw [hl]
  simp [hs]

theorem broadcast_status_events {reg : Registry} {sendOk : Nat → Bool} {u : Nat}
    {su : StatusUpdateMsg} {dl : Delivery}
    (h : dl ∈ broadcast_status_update_to_user reg sendOk u su) :
    dl.2 = WSEvent.StatusUpdate su := by
  unfold broadcast_status_update_to_user at h
  split at h
  next =>
    split at h
    next => simp at h; rw [h]
    next => simp at h
  next => simp at h

theorem broadcast_msg_some {reg : Registry} {sendOk : Nat → Bool} {u ch : Nat}
    {m : MessageNotification} (hl : lookupConn reg u = some ch) (hs : sendOk ch = true) :
    broadcast_message_to_user reg sendOk u m = [(ch, WSEvent.NewMessage m)] := by
  unfold broadcast_message_to_user
  rw [hl]
  simp [hs]

theorem broadcast_msg_none {reg : Registry} {sendOk : Nat → Bool} {u : Nat}
    {m : MessageNotification} (hl : lookupConn reg u = none) :
    broadcast_message_to_user reg sendOk u m = [] := by
  unfold broadcast_message_to_user
  rw [hl]

theorem broadcast_msg_dead {reg : Registry} {sendOk : Nat → Bool} {u ch : Nat}
    {m : MessageNotification} (hl : lookupConn reg u = some ch) (hs : sendOk ch = false) :
    broadcast_message_to_user reg sendOk u m = [] := by
  unfold broadcast_message_to_user
  rw [hl]
  simp [hs]

theorem broadcast_msg_events {reg : Registry} {sendOk : Nat → Bool} {u : Nat}
    {m : MessageNotification} {dl : Delivery}
    (h : dl ∈ broadcast_message_to_user reg sendOk u m) :
    dl.2 = WSEvent.NewMessage m := by
  unfold broadcast_message_to_user at h
  split at h
  next =>
    split at h
    next => simp at h; rw [h]
    next => simp at h
  next => simp at h

/-- C1: `update_status` rejects a READ request from any user other than the
message's receiver as an authorization failure — in the websocket engine and
in the HTTP endpoint alike — and the rejected command leaves the system state
(in particular the message's stored status) unchanged and emits no events. -/
theorem read_requires_receiver (user_id : Nat) (d : UpdateStatusData) (reg : Registry)
    (sendOk : Nat → Bool) (uOk : Bool) (now : Int) (store : Store)
    (mid : Nat) (row : Msg)
    (hmid : uuidParse d.message_id = some mid)
    (hstat : normStatus d.status = "READ")
    (hfind : store.find? (fun m => m.id == mid) = some row)
    (hne : row.receiver_id ≠ user_id) :
    handle_update_status user_id d reg sendOk true uOk now store =
      Except.error "Only the message receiver can mark it as read" ∧
    (∀ s : Sys, s.store = store → stepA sendOk s (Act.wsUpdate user_id d) = s) ∧
    (∀ uOk2 dOk2 : Bool,
      update_message_status_api user_id d.message_id d.status true uOk2 dOk2 store =
        ((403, "Only the message receiver can mark it as read"), store)) := by
  have herr : ∀ (reg2 : Registry) (sOk2 : Nat → Bool) (uOk2 : Bool) (now2 : Int),
      handle_update_status user_id d reg2 sOk2 true uOk2 now2 store =
        Except.error "Only the message receiver can mark it as read" := by
    intro reg2 sOk2 uOk2 now2
    unfold handle_update_status
    simp only [hmid, hstat, hfind]
    rw [if_neg (by decide), if_neg (by decide), if_pos ⟨hne, trivial⟩]
  refine ⟨herr reg sendOk uOk now, ?_, ?_⟩
  · intro s hs
    simp only [stepA]
    rw [hs, herr s.reg sendOk true s.clock]
  · intro uOk2 dOk2
    unfold update_message_status_api
    simp only [hmid, hstat, hfind]
    rw [if_neg (by decide), if_neg (by decide), if_pos ⟨hne, trivial⟩]

/-- Witness for C1 at a concrete rejected READ request. -/
theorem read_requires_receiver_witness :
    handle_update_status 1 ⟨"00000000000000000000000000000002", "READ"⟩ []
        (fun _ => true) true true 0 [⟨2, 0, 1, 3, "SENT", "text", [], []⟩] =
      Except.error "Only the message receiver can mark it as read" ∧
    (∀ s : Sys, s.store = [⟨2, 0, 1, 3, "SENT", "text", [], []⟩] →
      stepA (fun _ => true) s
        (Act.wsUpdate 1 ⟨"00000000000000000000000000000002", "READ"⟩) = s) ∧
    (∀ uOk2 dOk2 : Bool,
      update_message_status_api 1 "00000000000000000000000000000002" "READ" true uOk2 dOk2
          [⟨2, 0, 1, 3, "SENT", "text", [], []⟩] =
        ((403, "Only the message receiver can mark it as read"),
          [⟨2, 0, 1, 3, "SENT", "text", [], []⟩])) :=
  read_requires_receiver 1 ⟨"00000000000000000000000000000002", "READ"⟩ []
    (fun _ => true) true 0 [⟨2, 0, 1, 3, "SENT", "text", [], []⟩] 2
    ⟨2, 0, 1, 3, "SENT", "text", [], []⟩ (by decide) (by decide) (by decide) (by decide)

/-- Forward characterization of a successful send: the row is appended with
status SENT and the two broadcasts are emitted receiver-first. -/
theorem send_message_success
    (sender_id : Nat) (d : SendMessageData) (reg : Registry) (sendOk : Nat → Bool)
    (now : Int) (store : Store) (rid mid : Nat) (content ivb : List Nat)
    (h1 : uuidParse d.receiver_id = some rid)
    (h2 : uuidParse d.message_id = some mid)
    (h3 : b64decodeStr d.encrypted_content = some content)
    (h4 : b64decodeStr d.iv = some ivb) :
    handle_send_message sender_id d reg sendOk true now store =
      Except.ok (store ++ [⟨mid, now, sender_id, rid, "SENT", d.rtype, content, ivb⟩],
        broadcast_message_to_user reg sendOk rid
          ⟨toString mid, toString now, toString sender_id, toString rid, "SENT", d.rtype,
            d.encrypted_content, d.iv⟩ ++
        broadcast_status_update_to_user reg sendOk sender_id
          ⟨toString mid, "SENT", "server"⟩) := by
  unfold handle_send_message
  simp only [h1, h2, h3, h4]
  rw [if_pos trivial]

/-- C3: a valid send appends the row with the client-supplied message id and
status SENT; the emitted deliveries are a `NewMessage` to the receiver's
channel when one is registered and live (silently dropped otherwise), followed
by a `StatusUpdate(SENT, updated_by = server)` echo to the sender's own
channel; every `NewMessage` delivery precedes every `StatusUpdate` delivery. -/
theorem send_message_inserts_then_notifies
    (sender_id : Nat) (d : SendMessageData) (reg : Registry) (sendOk : Nat → Bool)
    (now : Int) (store : Store) (rid mid : Nat) (content ivb : List Nat)
    (h1 : uuidParse d.receiver_id = some rid)
    (h2 : uuidParse d.message_id = some mid)
    (h3 : b64decodeStr d.encrypted_content = some content)
    (h4 : b64decodeStr d.iv = some ivb) :
    ∃ row evs1 evs2,
      handle_send_message sender_id d reg sendOk true now store =
        Except.ok (store ++ [row], evs1 ++ evs2) ∧
      row.id = mid ∧ row.status = "SENT" ∧ row.sender_id = sender_id ∧
        row.receiver_id = rid ∧
      (∀ ch, lookupConn reg rid = some ch → sendOk ch = true →
        ∃ n, evs1 = [(ch, WSEvent.NewMessage n)] ∧ n.id = toString mid ∧
          n.status = "SENT" ∧ n.encrypted_content = d.encrypted_content ∧ n.iv = d.iv) ∧
      (lookupConn reg rid = none → evs1 = []) ∧
      (∀ ch, lookupConn reg rid = some ch → sendOk ch = false → evs1 = []) ∧
      (∀ ch, lookupConn reg sender_id = some ch → sendOk ch = true →
        evs2 = [(ch, WSEvent.StatusUpdate
          { message_id := toString mid, status := "SENT", updated_by := "server" })]) ∧
      (∀ dl ∈ evs1, isNewMessageEv dl.2 = true) ∧
      (∀ dl ∈ evs2, isStatusUpdateEv dl.2 = true) := by
  refine ⟨⟨mid, now, sender_id, rid, "SENT", d.rtype, content, ivb⟩,
    broadcast_message_to_user reg sendOk rid
      ⟨toString mid, toString now, toString sender_id, toString rid, "SENT", d.rtype,
        d.encrypted_content, d.iv⟩,
    broadcast_status_update_to_user reg sendOk sender_id
      ⟨toString mid, "SENT", "server"⟩,
    ?_, rfl, rfl, rfl, rfl, ?_, ?_, ?_, ?_, ?_, ?_⟩
  · exact send_message_success sender_id d reg sendOk now store rid mid content ivb
      h1 h2 h3 h4
  · intro ch hl hs
    exact ⟨_, broadcast_msg_some hl hs, rfl, rfl, rfl, rfl⟩
  · intro hl
    exact broadcast_msg_none hl
  · intro ch hl hs
    exact broadcast_msg_dead hl hs
  · intro ch hl hs
    exact broadcast_status_some hl hs
  · intro dl hdl
    rw [broadcast_msg_events hdl]
    rfl
  · intro dl hdl
    rw [broadcast_status_events hdl]
    rfl

/-- Witness for C3 at a concrete valid send with both parties registered. -/
theorem send_message_inserts_then_notifies_witness :
    ∃ row evs1 evs2,
      handle_send_message 4 ⟨"00000000000000000000000000000005",
          "00000000000000000000000000000007", "text", "QUJD", "QQ=="⟩
        [(7, 1), (4, 2)] (fun _ => true) true 0 [] =
        Except.ok ([] ++ [row], evs1 ++ evs2) ∧
      row.id = 5 ∧ row.status = "SENT" ∧ row.sender_id = 4 ∧ row.receiver_id = 7 ∧
      (∀ ch, lookupConn [(7, 1), (4, 2)] 7 = some ch → (fun _ : Nat => true) ch = true →
        ∃ n, evs1 = [(ch, WSEvent.NewMessage n)] ∧ n.id = toString 5 ∧
          n.status = "SENT" ∧ n.encrypted_content = "QUJD" ∧ n.iv = "QQ==") ∧
      (lookupConn [(7, 1), (4, 2)] 7 = none → evs1 = []) ∧
      (∀ ch, lookupConn [(7, 1), (4, 2)] 7 = some ch → (fun _ : Nat => true) ch = false →
        evs1 = []) ∧
      (∀ ch, lookupConn [(7, 1), (4, 2)] 4 = some ch → (fun _ : Nat => true) ch = true →
        evs2 = [(ch, WSEvent.StatusUpdate
          { message_id := toString 5, status := "SENT", updated_by := "server" })]) ∧
      (∀ dl ∈ evs1, isNewMessageEv dl.2 = true) ∧
      (∀ dl ∈ evs2, isStatusUpdateEv dl.2 = true) := by
  have hm : uuidParse "00000000000000000000000000000005" = some 5 := by decide
  have hr : uuidParse "00000000000000000000000000000007" = some 7 := by decide
  have hc : b64decodeStr "QUJD" = some [65, 66, 67] := by decide
  have hi : b64decodeStr "QQ==" = some [65] := by decide
  exact send_message_inserts_then_notifies 4
    ⟨"00000000000000000000000000000005", "00000000000000000000000000000007",
      "text", "QUJD", "QQ=="⟩
    [(7, 1), (4, 2)] (fun _ => true) 0 [] 7 5 [65, 66, 67] [65] hr hm hc hi

/-- Forward characterization of a successful websocket status update: the
stored status is rewritten, both parties are broadcast to, and a deferred
deletion due `now + 5` is scheduled exactly when the new status is READ. -/
theorem update_status_success
    (user_id : Nat) (d : UpdateStatusData) (reg : Registry) (sendOk : Nat → Bool)
    (now : Int) (store : Store) (mid : Nat) (row : Msg)
    (hmid : uuidParse d.message_id = some mid)
    (hvalid : statusValid (normStatus d.status) = true)
    (hfind : store.find? (fun m => m.id == mid) = some row)
    (hauth : normStatus d.status = "READ" → row.receiver_id = user_id) :
    handle_update_status user_id d reg sendOk true true now store =
      Except.ok
        (store.map (fun m =>
          if m.id == mid then { m with status := normStatus d.status } else m),
        broadcast_status_update_to_user reg sendOk row.sender_id
            ⟨toString mid, normStatus d.status, toString user_id⟩ ++
          broadcast_status_update_to_user reg sendOk row.receiver_id
            ⟨toString mid, normStatus d.status, toString user_id⟩,
        if normStatus d.status = "READ" then [(mid, now + 5)] else []) := by
  have hmem := List.mem_of_find?_eq_some hfind
  have hp := List.find?_some hfind
  have hcount : 0 < store.countP (fun m => m.id == mid) :=
    List.countP_pos_iff.mpr ⟨row, hmem, hp⟩
  unfold handle_update_status
  simp only [hmid, hfind, hvalid]
  rw [if_neg (show ¬ ¬ True by simp),
    if_neg (show ¬ (row.receiver_id ≠ user_id ∧ normStatus d.status = "READ") from
      fun hc => hc.1 (hauth hc.2)),
    if_neg (show ¬ ¬ True by simp),
    if_pos hcount, if_neg (show ¬ ¬ True by simp)]

/-- C4 counterexample: the engine does not enforce sender ≠ receiver, and for
a self-message the acting user's single registered channel receives the
`StatusUpdate` twice after one successful update — not exactly once as the
claim states for the sender channel and the receiver channel. -/
theorem status_update_self_message_double :
    handle_update_status 7 ⟨"00000000000000000000000000000005", "DELIVERED"⟩ [(7, 1)]
        (fun _ => true) true true 0 [⟨5, 0, 7, 7, "SENT", "text", [], []⟩] =
      Except.ok ([⟨5, 0, 7, 7, "DELIVERED", "text", [], []⟩],
        [(1, WSEvent.StatusUpdate ⟨"5", "DELIVERED", "7"⟩),
          (1, WSEvent.StatusUpdate ⟨"5", "DELIVERED", "7"⟩)], []) ∧
    List.countP (fun dl => dl.1 == 1 && isStatusUpdateEv dl.2)
      [((1 : Nat), WSEvent.StatusUpdate ⟨"5", "DELIVERED", "7"⟩),
        (1, WSEvent.StatusUpdate ⟨"5", "DELIVERED", "7"⟩)] = 2 := by
  constructor
  · rfl
  · rfl

/-- C4 amended: after a successful status update, the update is broadcast to
the sender's channel and to the receiver's channel independently (absence or
deadness of one never blocks the other), every delivered event carries the
new status and the acting user's id, and when the two parties' channels are
distinct each receives the event exactly once.  (For a self-message the one
channel receives it twice — see the counterexample.) -/
theorem status_update_notifies_both_parties
    (user_id : Nat) (d : UpdateStatusData) (reg : Registry) (sendOk : Nat → Bool)
    (now : Int) (store : Store) (mid : Nat) (row : Msg)
    (hmid : uuidParse d.message_id = some mid)
    (hvalid : statusValid (normStatus d.status) = true)
    (hfind : store.find? (fun m => m.id == mid) = some row)
    (hauth : normStatus d.status = "READ" → row.receiver_id = user_id) :
    ∃ st evs pend,
      handle_update_status user_id d reg sendOk true true now store =
        Except.ok (st, evs, pend) ∧
      (∀ dl ∈ evs,
        dl.2 = WSEvent.StatusUpdate ⟨toString mid, normStatus d.status, toString user_id⟩) ∧
      (∀ ch, lookupConn reg row.sender_id = some ch → sendOk ch = true →
        (ch, WSEvent.StatusUpdate ⟨toString mid, normStatus d.status, toString user_id⟩)
          ∈ evs) ∧
      (∀ ch, lookupConn reg row.receiver_id = some ch → sendOk ch = true →
        (ch, WSEvent.StatusUpdate ⟨toString mid, normStatus d.status, toString user_id⟩)
          ∈ evs) ∧
      (∀ cs cr, lookupConn reg row.sender_id = some cs → sendOk cs = true →
        lookupConn reg row.receiver_id = some cr → sendOk cr = true → cs ≠ cr →
        evs.countP (fun dl => dl.1 == cs) = 1 ∧ evs.countP (fun dl => dl.1 == cr) = 1) ∧
      (lookupConn reg row.sender_id = none → lookupConn reg row.receiver_id = none →
        evs = []) := by
  refine ⟨_, _, _, update_status_success user_id d reg sendOk now store mid row
    hmid hvalid hfind hauth, ?_, ?_, ?_, ?_, ?_⟩
  · intro dl hdl
    rcases List.mem_append.mp hdl with hdl2 | hdl2
    · exact broadcast_status_events hdl2
    · exact broadcast_status_events hdl2
  · intro ch hl hs
    rw [broadcast_status_some hl hs]
    exact List.mem_append_left _ (List.mem_singleton.mpr rfl)
  · intro ch hl hs
    rw [broadcast_status_some hl hs]
    exact List.mem_append_right _ (List.mem_singleton.mpr rfl)
  · intro cs cr hls hss hlr hsr hne
    rw [broadcast_status_some hls hss, broadcast_status_some hlr hsr]
    have h1 : (cs == cs) = true := by simp
    have h2 : (cr == cs) = false := by simp [Ne.symm hne]
    have h3 : (cs == cr) = false := by simp [hne]
    have h4 : (cr == cr) = true := by simp
    constructor
    · simp [List.countP_cons, List.countP_nil, h1, h2]
    · simp [List.countP_cons, List.countP_nil, h3, h4]
  · intro hls hlr
    rw [broadcast_status_none hls, broadcast_status_none hlr]
    rfl

/-- Witness for the amended C4 at a concrete update with both parties
registered on distinct channels. -/
theorem status_update_notifies_both_parties_witness :
    ∃ st evs pend,
      handle_update_status 7 ⟨"00000000000000000000000000000005", "DELIVERED"⟩
          [(4, 2), (7, 1)] (fun _ => true) true true 0
          [⟨5, 0, 4, 7, "SENT", "text", [], []⟩] =
        Except.ok (st, evs, pend) ∧
      (∀ dl ∈ evs, dl.2 = WSEvent.StatusUpdate
        ⟨toString 5, normStatus "DELIVERED", toString 7⟩) ∧
      (∀ ch, lookupConn [(4, 2), (7, 1)] 4 = some ch → (fun _ : Nat => true) ch = true →
        (ch, WSEvent.StatusUpdate ⟨toString 5, normStatus "DELIVERED", toString 7⟩)
          ∈ evs) ∧
      (∀ ch, lookupConn [(4, 2), (7, 1)] 7 = some ch → (fun _ : Nat => true) ch = true →
        (ch, WSEvent.StatusUpdate ⟨toString 5, normStatus "DELIVERED", toString 7⟩)
          ∈ evs) ∧
      (∀ cs cr, lookupConn [(4, 2), (7, 1)] 4 = some cs → (fun _ : Nat => true) cs = true →
        lookupConn [(4, 2), (7, 1)] 7 = some cr → (fun _ : Nat => true) cr = true →
        cs ≠ cr →
        evs.countP (fun dl => dl.1 == cs) = 1 ∧ evs.countP (fun dl => dl.1 == cr) = 1) ∧
      (lookupConn [(4, 2), (7, 1)] 4 = none → lookupConn [(4, 2), (7, 1)] 7 = none →
        evs = []) :=
  status_update_notifies_both_parties 7 ⟨"00000000000000000000000000000005", "DELIVERED"⟩
    [(4, 2), (7, 1)] (fun _ => true) 0 [⟨5, 0, 4, 7, "SENT", "text", [], []⟩] 5
    ⟨5, 0, 4, 7, "SENT", "text", [], []⟩ (by decide) (by decide) (by decide) (by decide)

/-- C5 counterexample: a session can end without any transport-level socket
error and without a close frame.  The outbound loop's `while let Ok(event) =
rx.recv().await` header exits as soon as `recv` returns `Lagged` — raised
precisely when pushed events have overflowed the broadcast ring buffer, the
spec's push-failure category — and the `tokio::select!` then tears the whole
session down even though the inbound loop is still alive. -/
theorem lagged_receiver_ends_session :
    outboundStep RecvOutcome.lagged = false ∧
    sessionEnded false (! outboundStep RecvOutcome.lagged) = true ∧
    RecvOutcome.lagged ≠ RecvOutcome.closed ∧
    (∀ e : WSEvent, ∀ w : WriteOutcome, RecvOutcome.lagged ≠ RecvOutcome.event e w) := by
  refine ⟨rfl, rfl, by simp, ?_⟩
  intro e w
  simp

/-- C5 amended: no handler outcome of a text frame ever ends the inbound
loop (malformed frames, unknown tags, bad parameters, and store failures are
logged and the loop continues), and the inbound loop ends only on a close
frame, a transport read error, or a failed pong write; but the session as a
whole ends as soon as either loop ends, and the outbound loop also exits on
the broadcast receive errors — `Lagged` (the receiver overflowed by the push
path) and `Closed` — besides a failed socket write. -/
theorem session_termination_conditions
    (user_id : Nat) (reg : Registry) (sendOk : Nat → Bool) (dbf : DbFlags) (now : Int)
    (store : Store) :
    (∀ wmsg, (inboundStep user_id reg sendOk dbf now store (InMsg.text wmsg)).2 = true) ∧
    (∀ m : InMsg, (inboundStep user_id reg sendOk dbf now store m).2 = false →
      m = InMsg.close ∨ m = InMsg.sockErr ∨ m = InMsg.ping false) ∧
    (∀ r : RecvOutcome, outboundStep r = false ↔
      (r = RecvOutcome.lagged ∨ r = RecvOutcome.closed ∨
        ∃ e, r = RecvOutcome.event e WriteOutcome.writeFailed)) ∧
    (∀ ib ob : Bool, sessionEnded ib ob = true ↔ (ib = true ∨ ob = true)) := by
  refine ⟨?_, ?_, ?_, ?_⟩
  · intro wmsg
    simp only [inboundStep]
    split
    · rfl
    · rfl
  · intro m hm
    cases m with
    | text wmsg =>
      simp only [inboundStep] at hm
      split at hm
      · exact absurd hm (by simp)
      · exact absurd hm (by simp)
    | close => exact Or.inl rfl
    | ping pongOk =>
      cases pongOk with
      | true => exact absurd hm (by simp [inboundStep])
      | false => exact Or.inr (Or.inr rfl)
    | binary => exact absurd hm (by simp [inboundStep])
    | sockErr => exact Or.inr (Or.inl rfl)
  · intro r
    cases r with
    | event e w =>
      cases w with
      | serializeFailed => simp [outboundStep]
      | written => simp [outboundStep]
      | writeFailed => simp [outboundStep]
    | lagged => simp [outboundStep]
    | closed => simp [outboundStep]
  · intro ib ob
    cases ib with
    | true => simp [sessionEnded]
    | false => simp [sessionEnded]

/-- Witness for the amended C5: a malformed frame, handled while every store
flag reports failure, still leaves the inbound loop running. -/
theorem session_termination_conditions_witness :
    (inboundStep 0 [] (fun _ => true) ⟨false, false, false⟩ 0 []
      (InMsg.text none)).2 = true :=
  (session_termination_conditions 0 [] (fun _ => true) ⟨false, false, false⟩ 0 []).1
    none

/-- C6: a send whose receiver id, message id, payload, or IV fails validation
is rejected with an error independent of the store and of the insert outcome
(so no store operation happens), and the rejected or insert-failed send
leaves the system unchanged and emits nothing. -/
theorem send_rejects_before_store (sender_id : Nat) (d : SendMessageData)
    (sendOk : Nat → Bool) :
    ((uuidParse d.receiver_id = none ∨ uuidParse d.message_id = none ∨
        b64decodeStr d.encrypted_content = none ∨ b64decodeStr d.iv = none) →
      ∃ e, (∀ (reg2 : Registry) (sOk2 : Nat → Bool) (iOk : Bool) (now2 : Int) (st2 : Store),
        handle_send_message sender_id d reg2 sOk2 iOk now2 st2 = Except.error e) ∧
        (∀ s : Sys, stepA sendOk s (Act.wsSend sender_id d) = s)) ∧
    (∀ (reg2 : Registry) (now2 : Int) (st2 : Store) (rid mid : Nat)
        (content ivb : List Nat),
      uuidParse d.receiver_id = some rid → uuidParse d.message_id = some mid →
      b64decodeStr d.encrypted_content = some content → b64decodeStr d.iv = some ivb →
      handle_send_message sender_id d reg2 sendOk false now2 st2 =
        Except.error "Database error") := by
  constructor
  · intro hbad
    have herr : ∃ e, ∀ (reg2 : Registry) (sOk2 : Nat → Bool) (iOk : Bool) (now2 : Int)
        (st2 : Store), handle_send_message sender_id d reg2 sOk2 iOk now2 st2 =
          Except.error e := by
      cases hvr : uuidParse d.receiver_id with
      | none =>
        refine ⟨"Invalid receiver_id format", ?_⟩
        intro reg2 sOk2 iOk now2 st2
        unfold handle_send_message
        simp only [hvr]
      | some rid =>
        cases hvm : uuidParse d.message_id with
        | none =>
          refine ⟨"Invalid message_id format", ?_⟩
          intro reg2 sOk2 iOk now2 st2
          unfold handle_send_message
          simp only [hvr, hvm]
        | some mid =>
          cases hvc : b64decodeStr d.encrypted_content with
          | none =>
            refine ⟨"Invalid base64 for encrypted_content", ?_⟩
            intro reg2 sOk2 iOk now2 st2
            unfold handle_send_message
            simp only [hvr, hvm, hvc]
          | some content =>
            cases hvi : b64decodeStr d.iv with
            | none =>
              refine ⟨"Invalid base64 for iv", ?_⟩
              intro reg2 sOk2 iOk now2 st2
              unfold handle_send_message
              simp only [hvr, hvm, hvc, hvi]
            | some ivb =>
              rcases hbad with hb | hb | hb | hb
              · exact absurd hvr (by rw [hb]; simp)
              · exact absurd hvm (by rw [hb]; simp)
              · exact absurd hvc (by rw [hb]; simp)
              · exact absurd hvi (by rw [hb]; simp)
    obtain ⟨e, he⟩ := herr
    refine ⟨e, he, ?_⟩
    intro s
    simp only [stepA]
    rw [he s.reg sendOk true s.clock s.store]
  · intro reg2 now2 st2 rid mid content ivb hvr hvm hvc hvi
    unfold handle_send_message
    simp only [hvr, hvm, hvc, hvi]
    rw [if_neg (by decide)]

/-- Witness for C6: a malformed receiver id is rejected identically for both
insert outcomes and leaves a concrete system state untouched, and a fully
valid send against a failing insert returns the store error. -/
theorem send_rejects_before_store_witness :
    (∃ e, (∀ (reg2 : Registry) (sOk2 : Nat → Bool) (iOk : Bool) (now2 : Int) (st2 : Store),
      handle_send_message 4 ⟨"00000000000000000000000000000005", "xyz", "text",
        "QUJD", "QQ=="⟩ reg2 sOk2 iOk now2 st2 = Except.error e) ∧
      (∀ s : Sys, stepA (fun _ => true) s
        (Act.wsSend 4 ⟨"00000000000000000000000000000005", "xyz", "text",
          "QUJD", "QQ=="⟩) = s)) ∧
    handle_send_message 4 ⟨"00000000000000000000000000000005",
        "00000000000000000000000000000007", "text", "QUJD", "QQ=="⟩ [] (fun _ => true)
        false 0 [] = Except.error "Database error" := by
  constructor
  · exact (send_rejects_before_store 4 ⟨"00000000000000000000000000000005", "xyz",
      "text", "QUJD", "QQ=="⟩ (fun _ => true)).1 (Or.inl (by decide))
  · exact (send_rejects_before_store 4 ⟨"00000000000000000000000000000005",
      "00000000000000000000000000000007", "text", "QUJD", "QQ=="⟩ (fun _ => true)).2
      [] 0 [] 7 5 [65, 66, 67] [65] (by decide) (by decide) (by decide) (by decide)

/-- C7: registering a second session for the same user replaces the entry
without error; afterwards lookups return the new channel, every push for that
user goes only to the newly registered channel, and the previously registered
channel receives no further pushes. -/
theorem register_last_write_wins (reg : Registry) (sendOk : Nat → Bool) (u ch1 ch2 : Nat)
    (m : MessageNotification) (su : StatusUpdateMsg) :
    lookupConn (insertConn (insertConn reg u ch1) u ch2) u = some ch2 ∧
    broadcast_message_to_user (insertConn (insertConn reg u ch1) u ch2) sendOk u m =
      (if sendOk ch2 then [(ch2, WSEvent.NewMessage m)] else []) ∧
    broadcast_status_update_to_user (insertConn (insertConn reg u ch1) u ch2) sendOk u su =
      (if sendOk ch2 then [(ch2, WSEvent.StatusUpdate su)] else []) ∧
    (ch1 ≠ ch2 → ∀ ev, (ch1, ev) ∉
      broadcast_message_to_user (insertConn (insertConn reg u ch1) u ch2) sendOk u m) := by
  have hl : lookupConn (insertConn (insertConn reg u ch1) u ch2) u = some ch2 := by
    unfold lookupConn insertConn
    rw [List.find?_cons_of_pos _ (by simp)]
  have hb : broadcast_message_to_user (insertConn (insertConn reg u ch1) u ch2) sendOk u m =
      (if sendOk ch2 then [(ch2, WSEvent.NewMessage m)] else []) := by
    unfold broadcast_message_to_user
    rw [hl]
  refine ⟨hl, hb, ?_, ?_⟩
  · unfold broadcast_status_update_to_user
    rw [hl]
  · intro hne ev hmem
    rw [hb] at hmem
    rcases hs : sendOk ch2 with _ | _
    · rw [hs] at hmem
      simp at hmem
    · rw [hs] at hmem
      simp at hmem
      exact hne hmem.1

/-- Witness for C7 at concrete registrations. -/
theorem register_last_write_wins_witness :
    lookupConn (insertConn (insertConn [] 9 1) 9 2) 9 = some 2 :=
  (register_last_write_wins [] (fun _ => true) 9 1 2
    ⟨"", "", "", "", "", "", "", ""⟩ ⟨"", "", ""⟩).1

theorem chanSend_eq {q : List WSEvent} (e : WSEvent) (hq : q.length ≤ 128) :
    chanSend q e = (q ++ [e]).drop (q.length + 1 - 128) := by
  unfold chanSend sessionChannelCapacity
  simp only [List.length_append, List.length_cons, List.length_nil]
  split
  next h => rfl
  next h =>
    rw [show q.length + 0 + 1 - 128 = 0 by omega]
    rfl

set_option maxRecDepth 2000 in
theorem chanSendAll_lastN : ∀ (es : List WSEvent) (q : List WSEvent), q.length ≤ 128 →
    chanSendAll q es = (q ++ es).drop (q.length + es.length - 128) := by
  intro es
  induction es with
  | nil =>
    intro q hq
    simp only [chanSendAll, List.foldl_nil, List.append_nil, List.length_nil, Nat.add_zero]
    rw [show q.length - 128 = 0 by omega]
    rfl
  | cons e es ih =>
    intro q hq
    have hstep : chanSendAll q (e :: es) = chanSendAll (chanSend q e) es := rfl
    have hcs := chanSend_eq e hq
    have hlen2 : (chanSend q e).length ≤ 128 := by
      rw [hcs]
      simp only [List.length_drop, List.length_append, List.length_cons, List.length_nil]
      omega
    rw [hstep, ih _ hlen2, hcs]
    rw [← List.drop_append_of_le_length
      (show q.length + 1 - 128 ≤ (q ++ [e]).length by simp; omega)]
    rw [List.drop_drop]
    have hGq : (q ++ [e]) ++ es = q ++ e :: es := by simp
    rw [hGq]
    congr 1
    simp only [List.length_drop, List.length_append, List.length_cons, List.length_nil]
    omega

/-- C8 counterexample: `broadcast::channel(100)` requests 100 slots but
tokio rounds the ring buffer up to the next power of two, 128 — so 101
events pushed into an unconsumed channel are all retained, and no oldest
event is dropped at the claimed capacity of 100. -/
theorem channel_capacity_is_rounded :
    requestedChannelCapacity = 100 ∧ sessionChannelCapacity = 128 ∧
    chanSendAll [] (List.replicate 101 (WSEvent.UserOnline "x")) =
      List.replicate 101 (WSEvent.UserOnline "x") := by
  refine ⟨rfl, rfl, ?_⟩
  have h := chanSendAll_lastN (List.replicate 101 (WSEvent.UserOnline "x")) [] (by simp)
  simpa using h

/-- C8 amended: the session channel is requested with capacity 100 but its
ring buffer actually holds 128 events; pushing any burst of events into an
unconsumed channel is a total operation on the buffer (the producer is never
blocked and never deadlocks), and past the 128-slot ring the oldest unread
events are discarded: the buffer always holds exactly the newest (at most)
128 events. -/
theorem channel_ring_drops_oldest :
    requestedChannelCapacity = 100 ∧
    sessionChannelCapacity = 128 ∧
    (∀ es : List WSEvent, chanSendAll [] es = es.drop (es.length - 128)) ∧
    (∀ es : List WSEvent, (chanSendAll [] es).length ≤ 128) := by
  have hmain : ∀ es : List WSEvent, chanSendAll [] es = es.drop (es.length - 128) := by
    intro es
    have := chanSendAll_lastN es [] (by simp)
    simpa using this
  refine ⟨rfl, rfl, hmain, ?_⟩
  intro es
  rw [hmain es]
  simp only [List.length_drop]
  omega

/-- Witness for the amended C8: 129 events sent into an unconsumed channel
leave the newest 128, dropping the oldest one. -/
theorem channel_ring_drops_oldest_witness :
    chanSendAll [] (List.replicate 129 (WSEvent.UserOnline "x")) =
      (List.replicate 129 (WSEvent.UserOnline "x")).drop
        ((List.replicate 129 (WSEvent.UserOnline "x")).length - 128) :=
  channel_ring_drops_oldest.2.2.1 (List.replicate 129 (WSEvent.UserOnline "x"))

theorem lookup_remove_none (reg : Registry) (u : Nat) :
    lookupConn (removeConn reg u) u = none := by
  unfold lookupConn removeConn
  have hnone : List.find? (fun p => p.1 == u) (reg.filter (fun p => ! (p.1 == u))) =
      none := by
    rw [List.find?_eq_none]
    intro x hx
    rw [List.mem_filter] at hx
    simpa using hx.2
  rw [hnone]

/-- C9: the teardown of an older session for user `u` removes `u`'s registry
entry unconditionally, even after a newer session for `u` has overwritten it:
afterwards lookups of `u` find nothing, pushes for `u` deliver nothing, and a
`UserOffline(u)` event reaches the remaining sessions although `u`'s newer
session is still running. -/
theorem cleanup_unregisters_newer_session (reg : Registry) (sendOk : Nat → Bool)
    (u ch1 ch2 w chw : Nat) (hw : w ≠ u) (hmem : (w, chw) ∈ reg)
    (hsw : sendOk chw = true) :
    lookupConn (sessionCleanup
      ((sessionRegister ((sessionRegister reg sendOk u ch1).1) sendOk u ch2).1)
      sendOk u).1 u = none ∧
    (∀ m, broadcast_message_to_user (sessionCleanup
      ((sessionRegister ((sessionRegister reg sendOk u ch1).1) sendOk u ch2).1)
      sendOk u).1 sendOk u m = []) ∧
    (∀ su, broadcast_status_update_to_user (sessionCleanup
      ((sessionRegister ((sessionRegister reg sendOk u ch1).1) sendOk u ch2).1)
      sendOk u).1 sendOk u su = []) ∧
    (chw, WSEvent.UserOffline (toString u)) ∈ (sessionCleanup
      ((sessionRegister ((sessionRegister reg sendOk u ch1).1) sendOk u ch2).1)
      sendOk u).2 := by
  have hreg : (sessionCleanup
      ((sessionRegister ((sessionRegister reg sendOk u ch1).1) sendOk u ch2).1)
      sendOk u).1 =
      removeConn (insertConn (insertConn reg u ch1) u ch2) u := rfl
  have hlook : lookupConn (sessionCleanup
      ((sessionRegister ((sessionRegister reg sendOk u ch1).1) sendOk u ch2).1)
      sendOk u).1 u = none := by
    rw [hreg]
    exact lookup_remove_none _ u
  refine ⟨hlook, ?_, ?_, ?_⟩
  · intro m
    unfold broadcast_message_to_user
    rw [hlook]
  · intro su
    unfold broadcast_status_update_to_user
    rw [hlook]
  · have hw2 : ((w, chw) : Nat × Nat).1 ≠ u := hw
    have hm1 : (w, chw) ∈ insertConn reg u ch1 := by
      unfold insertConn
      exact List.mem_cons_of_mem _ (List.mem_filter.mpr ⟨hmem, by simpa using hw2⟩)
    have hm2 : (w, chw) ∈ insertConn (insertConn reg u ch1) u ch2 := by
      unfold insertConn
      exact List.mem_cons_of_mem _ (List.mem_filter.mpr ⟨hm1, by simpa using hw2⟩)
    have hm3 : (w, chw) ∈ removeConn (insertConn (insertConn reg u ch1) u ch2) u :=
      List.mem_filter.mpr ⟨hm2, by simpa using hw2⟩
    show (chw, WSEvent.UserOffline (toString u)) ∈
      broadcast_to_all (removeConn (insertConn (insertConn reg u ch1) u ch2) u) sendOk
        (WSEvent.UserOffline (toString u))
    unfold broadcast_to_all
    refine List.mem_filterMap.mpr ⟨(w, chw), hm3, ?_⟩
    simp [hsw]

/-- Witness for C9: with a bystander session for user 3 on channel 9, the
stale teardown of user 5 makes user 5 unreachable and pushes `UserOffline(5)`
to channel 9. -/
theorem cleanup_unregisters_newer_session_witness :
    lookupConn (sessionCleanup
      ((sessionRegister ((sessionRegister [(3, 9)] (fun _ => true) 5 1).1)
        (fun _ => true) 5 2).1) (fun _ => true) 5).1 5 = none ∧
    (∀ m, broadcast_message_to_user (sessionCleanup
      ((sessionRegister ((sessionRegister [(3, 9)] (fun _ => true) 5 1).1)
        (fun _ => true) 5 2).1) (fun _ => true) 5).1 (fun _ => true) 5 m = []) ∧
    (∀ su, broadcast_status_update_to_user (sessionCleanup
      ((sessionRegister ((sessionRegister [(3, 9)] (fun _ => true) 5 1).1)
        (fun _ => true) 5 2).1) (fun _ => true) 5).1 (fun _ => true) 5 su = []) ∧
    (9, WSEvent.UserOffline (toString 5)) ∈ (sessionCleanup
      ((sessionRegister ((sessionRegister [(3, 9)] (fun _ => true) 5 1).1)
        (fun _ => true) 5 2).1) (fun _ => true) 5).2 :=
  cleanup_unregisters_newer_session [(3, 9)] (fun _ => true) 5 1 2 3 9
    (by decide) (by decide) (by decide)

/-- C10: the strict base64 decode at send and the base64 encode at fetch are
mutually inverse on every accepted input, so after any accepted send the
fetched `encrypted_content` and `iv` equal the original client strings
exactly. -/
theorem send_fetch_roundtrip
    (sender_id : Nat) (d : SendMessageData) (reg : Registry) (sendOk : Nat → Bool)
    (now : Int) (store : Store) (rid mid : Nat) (content ivb : List Nat)
    (h1 : uuidParse d.receiver_id = some rid)
    (h2 : uuidParse d.message_id = some mid)
    (h3 : b64decodeStr d.encrypted_content = some content)
    (h4 : b64decodeStr d.iv = some ivb) :
    (∀ (s : String) (bs : List Nat), b64decodeStr s = some bs → b64encodeStr bs = s) ∧
    ∃ st evs, handle_send_message sender_id d reg sendOk true now store =
        Except.ok (st, evs) ∧
      ∃ resp ∈ get_messages_with_user rid sender_id st,
        resp.id = toString mid ∧ resp.encrypted_content = d.encrypted_content ∧
          resp.iv = d.iv := by
  refine ⟨fun s bs h => b64encodeStr_decodeStr h, ?_⟩
  refine ⟨store ++ [⟨mid, now, sender_id, rid, "SENT", d.rtype, content, ivb⟩], _,
    send_message_success sender_id d reg sendOk now store rid mid content ivb h1 h2 h3 h4,
    messageRowToResponse ⟨mid, now, sender_id, rid, "SENT", d.rtype, content, ivb⟩,
    ?_, rfl, ?_, ?_⟩
  · unfold get_messages_with_user
    refine List.mem_map.mpr ⟨⟨mid, now, sender_id, rid, "SENT", d.rtype, content, ivb⟩,
      ?_, rfl⟩
    rw [List.mem_mergeSort]
    refine List.mem_filter.mpr ⟨List.mem_append_right _ (List.mem_singleton.mpr rfl), ?_⟩
    simp
  · exact b64encodeStr_decodeStr h3
  · exact b64encodeStr_decodeStr h4

theorem send_ok_inv {sender : Nat} {d : SendMessageData} {reg : Registry}
    {sendOk : Nat → Bool} {iOk : Bool} {now : Int} {store st : Store}
    {evs : List Delivery}
    (h : handle_send_message sender d reg sendOk iOk now store = Except.ok (st, evs)) :
    ∃ rid mid content ivb,
      uuidParse d.receiver_id = some rid ∧ uuidParse d.message_id = some mid ∧
      b64decodeStr d.encrypted_content = some content ∧
      b64decodeStr d.iv = some ivb ∧
      st = store ++ [⟨mid, now, sender, rid, "SENT", d.rtype, content, ivb⟩] := by
  unfold handle_send_message at h
  split at h
  next => exact absurd h (by simp)
  next rid hrid =>
    split at h
    next => exact absurd h (by simp)
    next mid hmid =>
      split at h
      next => exact absurd h (by simp)
      next content hcontent =>
        split at h
        next => exact absurd h (by simp)
        next ivb hivb =>
          split at h
          next hins =>
            rw [Except.ok.injEq, Prod.mk.injEq] at h
            exact ⟨rid, mid, content, ivb, hrid, hmid, hcontent, hivb, h.1.symm⟩
          next => exact absurd h (by simp)

theorem update_ok_inv {user : Nat} {d : UpdateStatusData} {reg : Registry}
    {sendOk : Nat → Bool} {fOk uOk : Bool} {now : Int} {store st : Store}
    {evs : List Delivery} {pend : List (Nat × Int)}
    (h : handle_update_status user d reg sendOk fOk uOk now store =
      Except.ok (st, evs, pend)) :
    ∃ mid2, uuidParse d.message_id = some mid2 ∧
      st = store.map (fun m =>
        if m.id == mid2 then { m with status := normStatus d.status } else m) ∧
      pend = (if normStatus d.status = "READ" then [(mid2, now + 5)] else []) := by
  unfold handle_update_status at h
  split at h
  next => exact absurd h (by simp)
  next mid2 hmid2 =>
    split at h
    next => exact absurd h (by simp)
    next =>
      split at h
      next => exact absurd h (by simp)
      next =>
        split at h
        next => exact absurd h (by simp)
        next row hrow =>
          split at h
          next => exact absurd h (by simp)
          next =>
            split at h
            next => exact absurd h (by simp)
            next =>
              split at h
              next =>
                rw [Except.ok.injEq, Prod.mk.injEq, Prod.mk.injEq] at h
                exact ⟨mid2, hmid2, h.1.symm, h.2.2.symm⟩
              next => exact absurd h (by simp)

theorem api_store_shape (user : Nat) (mids sIn : String) (fOk uOk dOk : Bool)
    (store : Store) :
    (update_message_status_api user mids sIn fOk uOk dOk store).2 = store ∨
    (normStatus sIn = "READ" ∧ ∃ mid2,
      (update_message_status_api user mids sIn fOk uOk dOk store).2 =
        store.filter (fun m => ! (m.id == mid2))) ∨
    (∃ mid2, (update_message_status_api user mids sIn fOk uOk dOk store).2 =
      store.map (fun m =>
        if m.id == mid2 then { m with status := normStatus sIn } else m)) := by
  unfold update_message_status_api
  repeat' split
  all_goals first
    | (left; rfl)
    | (right; left; exact ⟨by assumption, _, rfl⟩)
    | (right; right; exact ⟨_, rfl⟩)

/-- Witness for C10 at a concrete accepted send. -/
theorem send_fetch_roundtrip_witness :
    (∀ (s : String) (bs : List Nat), b64decodeStr s = some bs → b64encodeStr bs = s) ∧
    ∃ st evs, handle_send_message 4 ⟨"00000000000000000000000000000005",
          "00000000000000000000000000000007", "text", "QUJD", "QQ=="⟩
        [(7, 1), (4, 2)] (fun _ => true) true 0 [] = Except.ok (st, evs) ∧
      ∃ resp ∈ get_messages_with_user 7 4 st,
        resp.id = toString 5 ∧ resp.encrypted_content = "QUJD" ∧ resp.iv = "QQ==" :=
  send_fetch_roundtrip 4 ⟨"00000000000000000000000000000005",
      "00000000000000000000000000000007", "text", "QUJD", "QQ=="⟩
    [(7, 1), (4, 2)] (fun _ => true) 0 [] 7 5 [65, 66, 67] [65]
    (by decide) (by decide) (by decide) (by decide)

theorem step_preserves_absent {sendOk : Nat → Bool} {s : Sys} {a : Act} {mid : Nat}
    {T : Int}
    (hnores : ∀ snd sd, a = Act.wsSend snd sd → uuidParse sd.message_id ≠ some mid)
    (hP : ((mid, T) ∈ s.pending ∧ s.clock < T) ∨ (∀ m ∈ s.store, m.id ≠ mid)) :
    ((mid, T) ∈ (stepA sendOk s a).pending ∧ (stepA sendOk s a).clock < T) ∨
    (∀ m ∈ (stepA sendOk s a).store, m.id ≠ mid) := by
  cases a with
  | wsSend snd sd =>
    simp only [stepA]
    cases hh : handle_send_message snd sd s.reg sendOk true s.clock s.store with
    | error e => exact hP
    | ok x =>
      obtain ⟨st, evs⟩ := x
      obtain ⟨rid, mid2, content, ivb, hrid, hmid2, hc, hi, hst⟩ := send_ok_inv hh
      rcases hP with ⟨hm, hc2⟩ | hnone
      · exact Or.inl ⟨hm, hc2⟩
      · right
        intro m hm2
        rw [hst] at hm2
        rcases List.mem_append.mp hm2 with h | h
        · exact hnone m h
        · rw [List.mem_singleton] at h
          subst h
          intro hEq
          have hmm : mid2 = mid := hEq
          exact hnores snd sd rfl (hmm ▸ hmid2)
  | wsUpdate u2 d2 =>
    simp only [stepA]
    cases hh : handle_update_status u2 d2 s.reg sendOk true true s.clock s.store with
    | error e => exact hP
    | ok x =>
      obtain ⟨st, evs, pend⟩ := x
      obtain ⟨mid2, hmid2, hst, hpend⟩ := update_ok_inv hh
      rcases hP with ⟨hm, hc2⟩ | hnone
      · exact Or.inl ⟨List.mem_append_left _ hm, hc2⟩
      · right
        intro m hm2
        rw [hst] at hm2
        obtain ⟨m0, hm0, hfm⟩ := List.mem_map.mp hm2
        have hid : m.id = m0.id := by
          rw [← hfm]
          split
          · rfl
          · rfl
        rw [hid]
        exact hnone m0 hm0
  | httpUpdate u2 mids sIn =>
    simp only [stepA]
    rcases hP with ⟨hm, hc2⟩ | hnone
    · exact Or.inl ⟨hm, hc2⟩
    · right
      intro m hm2
      rcases api_store_shape u2 mids sIn true true true s.store with hsh | ⟨hread, mid2, hsh⟩
        | ⟨mid2, hsh⟩
      · rw [hsh] at hm2
        exact hnone m hm2
      · rw [hsh] at hm2
        exact hnone m (List.mem_filter.mp hm2).1
      · rw [hsh] at hm2
        obtain ⟨m0, hm0, hfm⟩ := List.mem_map.mp hm2
        have hid : m.id = m0.id := by
          rw [← hfm]
          split
          · rfl
          · rfl
        rw [hid]
        exact hnone m0 hm0
  | connect u2 ch => exact hP
  | disconnect u2 => exact hP
  | elapse dd =>
    simp only [stepA, fireDue]
    rcases hP with ⟨hm, hc2⟩ | hnone
    · by_cases ht : s.clock + (dd : Int) < T
      · left
        refine ⟨List.mem_filter.mpr ⟨hm, ?_⟩, ht⟩
        simpa using ht
      · right
        intro m hm2
        have hkeep := (List.mem_filter.mp hm2).2
        intro hEq
        rw [Bool.not_eq_true', List.any_eq_false] at hkeep
        refine hkeep (mid, T) hm ?_
        simp only [Bool.and_eq_true, beq_iff_eq, decide_eq_true_eq]
        exact ⟨hEq.symm, by omega⟩
    · right
      intro m hm2
      exact hnone m (List.mem_filter.mp hm2).1

theorem pending_invariant (sendOk : Nat → Bool) (mid : Nat) (T : Int) :
    ∀ (acts : List Act) (s : Sys),
      (∀ a ∈ acts, ∀ snd sd, a = Act.wsSend snd sd → uuidParse sd.message_id ≠ some mid) →
      (((mid, T) ∈ s.pending ∧ s.clock < T) ∨ (∀ m ∈ s.store, m.id ≠ mid)) →
      T ≤ (runActs sendOk s acts).clock →
      ∀ m ∈ (runActs sendOk s acts).store, m.id ≠ mid := by
  intro acts
  induction acts with
  | nil =>
    intro s hnores hP hclock m hm
    rcases hP with ⟨hmem, hlt⟩ | hnone
    · exact absurd hclock (by simp only [runActs]; omega)
    · exact hnone m hm
  | cons a acts ih =>
    intro s hnores hP hclock m hm
    exact ih (stepA sendOk s a)
      (fun x hx => hnores x (List.mem_cons_of_mem a hx))
      (step_preserves_absent (hnores a (List.mem_cons_self a acts)) hP)
      hclock m hm

theorem store_removal_requires_read (sendOk : Nat → Bool) (s : Sys) (a : Act) (m : Msg)
    (hm : m ∈ s.store)
    (hgone : ∀ m2 ∈ (stepA sendOk s a).store, m2.id ≠ m.id) :
    (∃ dd2 : Nat, a = Act.elapse dd2 ∧
      ∃ p ∈ s.pending, p.1 = m.id ∧ p.2 ≤ s.clock + (dd2 : Int)) ∨
    (∃ u2 mids sIn, a = Act.httpUpdate u2 mids sIn ∧ normStatus sIn = "READ") := by
  cases a with
  | wsSend snd sd =>
    exfalso
    revert hgone
    simp only [stepA]
    cases hh : handle_send_message snd sd s.reg sendOk true s.clock s.store with
    | error e =>
      intro hgone
      exact hgone m hm rfl
    | ok x =>
      obtain ⟨st, evs⟩ := x
      obtain ⟨rid, mid2, content, ivb, hq1, hq2, hq3, hq4, hst⟩ := send_ok_inv hh
      intro hgone
      exact hgone m (by rw [hst]; exact List.mem_append_left _ hm) rfl
  | wsUpdate u2 d2 =>
    exfalso
    revert hgone
    simp only [stepA]
    cases hh : handle_update_status u2 d2 s.reg sendOk true true s.clock s.store with
    | error e =>
      intro hgone
      exact hgone m hm rfl
    | ok x =>
      obtain ⟨st, evs, pend⟩ := x
      obtain ⟨mid2, hmid2, hst, hpend⟩ := update_ok_inv hh
      intro hgone
      refine hgone (if m.id == mid2 then { m with status := normStatus d2.status } else m)
        (by rw [hst]; exact List.mem_map.mpr ⟨m, hm, rfl⟩) ?_
      split
      · rfl
      · rfl
  | httpUpdate u2 mids sIn =>
    rcases api_store_shape u2 mids sIn true true true s.store with hsh | ⟨hread, mid2, hsh⟩
      | ⟨mid2, hsh⟩
    · exfalso
      refine hgone m ?_ rfl
      show m ∈ (update_message_status_api u2 mids sIn true true true s.store).2
      rw [hsh]
      exact hm
    · exact Or.inr ⟨u2, mids, sIn, rfl, hread⟩
    · exfalso
      refine hgone (if m.id == mid2 then { m with status := normStatus sIn } else m) ?_ ?_
      · show (if m.id == mid2 then { m with status := normStatus sIn } else m) ∈
          (update_message_status_api u2 mids sIn true true true s.store).2
        rw [hsh]
        exact List.mem_map.mpr ⟨m, hm, rfl⟩
      · split
        · rfl
        · rfl
  | connect u2 ch => exact absurd rfl (hgone m hm)
  | disconnect u2 => exact absurd rfl (hgone m hm)
  | elapse dd2 =>
    left
    refine ⟨dd2, rfl, ?_⟩
    cases hx : s.pending.any
        (fun p => p.1 == m.id && decide (p.2 ≤ s.clock + (dd2 : Int))) with
    | true =>
      obtain ⟨p, hp, hcond⟩ := List.any_eq_true.mp hx
      simp only [Bool.and_eq_true, beq_iff_eq, decide_eq_true_eq] at hcond
      exact ⟨p, hp, hcond.1, hcond.2⟩
    | false =>
      exfalso
      refine hgone m ?_ rfl
      simp only [stepA, fireDue]
      refine List.mem_filter.mpr ⟨hm, ?_⟩
      rw [hx]
      rfl

theorem pending_created_only_by_read (sendOk : Nat → Bool) (s : Sys) (a : Act)
    (p : Nat × Int) (hp : p ∈ (stepA sendOk s a).pending) (hnp : p ∉ s.pending) :
    ∃ u2 d2 mid2, a = Act.wsUpdate u2 d2 ∧ normStatus d2.status = "READ" ∧
      uuidParse d2.message_id = some mid2 ∧ p = (mid2, s.clock + 5) := by
  cases a with
  | wsSend snd sd =>
    exfalso
    revert hp
    simp only [stepA]
    cases hh : handle_send_message snd sd s.reg sendOk true s.clock s.store with
    | error e => exact hnp
    | ok x =>
      obtain ⟨st, evs⟩ := x
      exact hnp
  | wsUpdate u2 d2 =>
    revert hp
    simp only [stepA]
    cases hh : handle_update_status u2 d2 s.reg sendOk true true s.clock s.store with
    | error e =>
      intro hp
      exact absurd hp hnp
    | ok x =>
      obtain ⟨st, evs, pend⟩ := x
      obtain ⟨mid2, hmid2, hst, hpend⟩ := update_ok_inv hh
      intro hp
      rcases List.mem_append.mp hp with h | h
      · exact absurd h hnp
      · rw [hpend] at h
        by_cases hread : normStatus d2.status = "READ"
        · rw [if_pos hread, List.mem_singleton] at h
          exact ⟨u2, d2, mid2, rfl, hread, hmid2, h⟩
        · rw [if_neg hread] at h
          exact absurd h (List.not_mem_nil p)
  | httpUpdate u2 mids sIn => exact absurd hp hnp
  | connect u2 ch => exact absurd hp hnp
  | disconnect u2 => exact absurd hp hnp
  | elapse dd2 =>
    exfalso
    revert hp
    simp only [stepA, fireDue]
    intro hp
    exact hnp (List.mem_filter.mp hp).1

theorem ws_read_deletes_after_grace (sendOk : Nat → Bool) (s0 : Sys) (user : Nat)
    (dd : UpdateStatusData) (mid : Nat) (row : Msg)
    (hmid : uuidParse dd.message_id = some mid)
    (hread : normStatus dd.status = "READ")
    (hfind : s0.store.find? (fun m => m.id == mid) = some row)
    (hrecv : row.receiver_id = user)
    (acts : List Act)
    (hnores : ∀ a ∈ acts, ∀ snd sd, a = Act.wsSend snd sd →
      uuidParse sd.message_id ≠ some mid)
    (hclock : s0.clock + 5 ≤
      (runActs sendOk (stepA sendOk s0 (Act.wsUpdate user dd)) acts).clock) :
    ∀ m ∈ (runActs sendOk (stepA sendOk s0 (Act.wsUpdate user dd)) acts).store,
      m.id ≠ mid := by
  have hvalid : statusValid (normStatus dd.status) = true := by
    rw [hread]
    decide
  have hok := update_status_success user dd s0.reg sendOk s0.clock s0.store mid row
    hmid hvalid hfind (fun _ => hrecv)
  have hs1 : stepA sendOk s0 (Act.wsUpdate user dd) =
      { s0 with
        store := s0.store.map (fun m =>
          if m.id == mid then { m with status := normStatus dd.status } else m),
        pending := s0.pending ++ [(mid, s0.clock + 5)] } := by
    simp only [stepA, hok]
    rw [if_pos hread]
  intro m hm
  refine pending_invariant sendOk mid (s0.clock + 5) acts
    (stepA sendOk s0 (Act.wsUpdate user dd)) hnores ?_ hclock m hm
  left
  rw [hs1]
  refine ⟨List.mem_append_right _ (List.mem_singleton.mpr rfl), ?_⟩
  show s0.clock < s0.clock + 5
  omega

theorem api_read_deletes_immediately (user : Nat) (mids sIn : String) (store : Store)
    (mid : Nat) (row : Msg) (uOk2 : Bool)
    (hmid : uuidParse mids = some mid)
    (hread : normStatus sIn = "READ")
    (hfind : store.find? (fun m => m.id == mid) = some row)
    (hrecv : row.receiver_id = user) :
    update_message_status_api user mids sIn true uOk2 true store =
      ((200, "Message marked as read and deleted"),
        store.filter (fun m => ! (m.id == mid))) ∧
    ∀ m ∈ store.filter (fun m => ! (m.id == mid)), m.id ≠ mid := by
  have hmem := List.mem_of_find?_eq_some hfind
  have hpp := List.find?_some hfind
  have hcount : 0 < store.countP (fun m => m.id == mid) :=
    List.countP_pos_iff.mpr ⟨row, hmem, hpp⟩
  constructor
  · unfold update_message_status_api
    simp only [hmid, hread, hfind]
    rw [if_neg (by decide), if_neg (by decide),
      if_neg (show ¬ (row.receiver_id ≠ user ∧ True) from fun hc => hc.1 hrecv),
      if_pos trivial, if_neg (show ¬ ¬ True by simp), if_pos hcount]
  · intro m hm
    have hc := (List.mem_filter.mp hm).2
    simpa using hc

/-- C2 counterexample: the HTTP status endpoint cited by the claim deletes the
row in the very step that carries the READ request — the message is gone zero
seconds after the status-update call and the clock has not advanced — so the
deletion does not happen "only after a fixed 5-second grace period from the
status-update call". -/
theorem api_read_deletes_with_zero_delay :
    stepA (fun _ => true) ⟨0, [⟨5, 0, 4, 7, "SENT", "text", [], []⟩], [], []⟩
        (Act.httpUpdate 7 "00000000000000000000000000000005" "READ") =
      ⟨0, [], [], []⟩ := by
  rfl

/-- C2 amended: a message row disappears only through a READ request — either
the deferred deletion that a successful websocket READ update schedules for
exactly 5 seconds after the call (deferred deletions are created by READ
updates alone), or the HTTP endpoint's immediate delete-on-READ.  After a
successful websocket READ update, once 5 or more seconds have elapsed the row
no longer exists, whatever actions happened in between (including the issuing
session disconnecting), as long as no new send reuses the same message id;
after a successful HTTP READ request the row is gone immediately, hence also
at least 5 seconds later. -/
theorem read_deletion_lifecycle :
    (∀ (sendOk : Nat → Bool) (s : Sys) (a : Act) (m : Msg), m ∈ s.store →
      (∀ m2 ∈ (stepA sendOk s a).store, m2.id ≠ m.id) →
      ((∃ dd2 : Nat, a = Act.elapse dd2 ∧
          ∃ p ∈ s.pending, p.1 = m.id ∧ p.2 ≤ s.clock + (dd2 : Int)) ∨
        (∃ u2 mids sIn, a = Act.httpUpdate u2 mids sIn ∧ normStatus sIn = "READ"))) ∧
    (∀ (sendOk : Nat → Bool) (s : Sys) (a : Act) (p : Nat × Int),
      p ∈ (stepA sendOk s a).pending → p ∉ s.pending →
      ∃ u2 d2 mid2, a = Act.wsUpdate u2 d2 ∧ normStatus d2.status = "READ" ∧
        uuidParse d2.message_id = some mid2 ∧ p = (mid2, s.clock + 5)) ∧
    (∀ (sendOk : Nat → Bool) (s0 : Sys) (user : Nat) (dd : UpdateStatusData)
        (mid : Nat) (row : Msg),
      uuidParse dd.message_id = some mid → normStatus dd.status = "READ" →
      s0.store.find? (fun m => m.id == mid) = some row → row.receiver_id = user →
      ∀ acts : List Act,
        (∀ a ∈ acts, ∀ snd sd, a = Act.wsSend snd sd →
          uuidParse sd.message_id ≠ some mid) →
        s0.clock + 5 ≤
          (runActs sendOk (stepA sendOk s0 (Act.wsUpdate user dd)) acts).clock →
        ∀ m ∈ (runActs sendOk (stepA sendOk s0 (Act.wsUpdate user dd)) acts).store,
          m.id ≠ mid) ∧
    (∀ (user : Nat) (mids sIn : String) (store : Store) (mid : Nat) (row : Msg)
        (uOk2 : Bool),
      uuidParse mids = some mid → normStatus sIn = "READ" →
      store.find? (fun m => m.id == mid) = some row → row.receiver_id = user →
      update_message_status_api user mids sIn true uOk2 true store =
        ((200, "Message marked as read and deleted"),
          store.filter (fun m => ! (m.id == mid))) ∧
      ∀ m ∈ store.filter (fun m => ! (m.id == mid)), m.id ≠ mid) :=
  ⟨store_removal_requires_read, pending_created_only_by_read,
    ws_read_deletes_after_grace, api_read_deletes_immediately⟩

/-- Witness for the amended C2: a concrete websocket READ update whose issuing
session disconnects immediately; 5 seconds later the row's id is gone from
the store. -/
theorem read_deletion_lifecycle_witness :
    ¬ (5 ∈ ((runActs (fun _ => true)
      (stepA (fun _ => true) ⟨0, [⟨5, 0, 4, 7, "SENT", "text", [], []⟩], [(7, 1)], []⟩
        (Act.wsUpdate 7 ⟨"00000000000000000000000000000005", "READ"⟩))
      [Act.disconnect 7, Act.elapse 5]).store.map Msg.id)) := by
  intro hmem
  obtain ⟨m, hm, hid⟩ := List.mem_map.mp hmem
  refine read_deletion_lifecycle.2.2.1 (fun _ => true)
    ⟨0, [⟨5, 0, 4, 7, "SENT", "text", [], []⟩], [(7, 1)], []⟩ 7
    ⟨"00000000000000000000000000000005", "READ"⟩ 5 ⟨5, 0, 4, 7, "SENT", "text", [], []⟩
    (by decide) (by decide) (by decide) (by decide)
    [Act.disconnect 7, Act.elapse 5] ?_ (by decide) m hm hid
  intro a ha snd sd heq
  rcases List.mem_cons.mp ha with h | h
  · subst h
    simp at heq
  · rcases List.mem_cons.mp h with h2 | h2
    · subst h2
      simp at heq
    · exact absurd h2 (List.not_mem_nil a)

end SafeChat
